import Mathlib

/-!
Shallow embedding of the Articulated Model Animation and Camera Choreography
Engine of this repository (src/client/src/components/FetchHeroViewer.tsx and
the unnamed near-duplicate variants).  Numbers are embedded as rationals; the
JavaScript value NaN is embedded as `none` in `Option ℚ` where it can arise
(the remainder `elapsed % duration` with duration 0).
-/

namespace FetchHero

/-- `type Keyframe = { time: number; joints: Record<string, number> }` —
the joints record is an insertion-ordered list of (joint name, angle). -/
structure Keyframe where
  time : ℚ
  joints : List (String × ℚ)
deriving Repr, DecidableEq

/-- `type Clip = { name: string; loop?: boolean; frames: Keyframe[] }`;
the optional `loop` flag defaults to false. -/
structure Clip where
  name : String
  loop : Bool := false
  frames : List Keyframe
deriving Repr, DecidableEq

/-- Placeholder keyframe used only to totalize first/last access; the code
indexes `frames[0]` and `frames[frames.length - 1]` of a non-empty array. -/
def defaultKeyframe : Keyframe := { time := 0, joints := [] }

/-- `clip.frames[0]`. -/
def firstFrame (c : Clip) : Keyframe := c.frames.headD defaultKeyframe

/-- `clip.frames[clip.frames.length - 1]`. -/
def lastFrame (c : Clip) : Keyframe := c.frames.getLastD defaultKeyframe

/-- `const duration = clip.frames[clip.frames.length - 1].time`. -/
def clipDuration (c : Clip) : ℚ := (lastFrame c).time

/-- Record access `f.joints[name]`, `none` when the key is absent. -/
def lookupKey {α : Type} : List (String × α) → String → Option α
  | [], _ => none
  | (k, v) :: rest, n => if k = n then some v else lookupKey rest n

/-- `f.joints[name] ?? 0` — the default-to-zero policy for a joint missing
from one of the two bracketing keyframes. -/
def kfValue (f : Keyframe) (n : String) : ℚ := (lookupKey f.joints n).getD 0

/-- `THREE.MathUtils.lerp(x, y, t) = x + (y - x) * t`. -/
def lerp {α : Type} [Ring α] (x y t : α) : α := x + (y - x) * t

/-- The scan `for (let i = 0; i < clip.frames.length - 1; i++)` that returns
the first adjacent pair `(a, b)` with `t >= a.time && t <= b.time`. -/
def scanBracket : List Keyframe → ℚ → Option (Keyframe × Keyframe)
  | a :: b :: rest, t =>
      if a.time ≤ t ∧ t ≤ b.time then some (a, b) else scanBracket (b :: rest) t
  | _, _ => none

/-- Bracketing keyframes: initialised to `(frames[0], frames[last])` and
replaced by the first adjacent pair containing `t`, exactly as the loop does. -/
def findBracket (c : Clip) (t : ℚ) : Keyframe × Keyframe :=
  (scanBracket c.frames t).getD (firstFrame c, lastFrame c)

/-- `const span = Math.max(0.001, f2.time - f1.time)` — the epsilon floor. -/
def spanOf (f1 f2 : Keyframe) : ℚ := max (1 / 1000) (f2.time - f1.time)

/-- `const alpha = Math.min(1, Math.max(0, (t - f1.time) / span))`. -/
def alphaAt (f1 f2 : Keyframe) (t : ℚ) : ℚ :=
  min 1 (max 0 ((t - f1.time) / spanOf f1 f2))

/-- JavaScript Set insertion: keep the first occurrence of each element. -/
def insertUnique (l : List String) (a : String) : List String :=
  if a ∈ l then l else l ++ [a]

/-- `new Set([...Object.keys(f1.joints), ...Object.keys(f2.joints)])` as the
insertion-ordered list of distinct joint names. -/
def jointNames (f1 f2 : Keyframe) : List String :=
  ((f1.joints.map Prod.fst) ++ (f2.joints.map Prod.fst)).foldl insertUnique []

/-- The per-joint values computed by the unfinished branch of the frame
callback: for every name of `f1.joints` or `f2.joints`, the value
`lerp(f1.joints[name] ?? 0, f2.joints[name] ?? 0, alpha)`. -/
def sampleClip (c : Clip) (t : ℚ) : List (String × ℚ) :=
  let fp := findBracket c t
  (jointNames fp.1 fp.2).map fun n =>
    (n, lerp (kfValue fp.1 n) (kfValue fp.2 n) (alphaAt fp.1 fp.2 t))

/-- The registry check `const j = jointMapRef.current[name]; if (!j || typeof
j.setJointValue !== "function") return;`: only names present in the joint
registry are actually written. -/
def registryFilter (reg : List String) : List (String × ℚ) → List (String × ℚ)
  | [] => []
  | (k, v) :: rest =>
      if k ∈ reg then (k, v) :: registryFilter reg rest else registryFilter reg rest

/-- JavaScript truncating integer division used by the `%` operator. -/
def jsTrunc (q : ℚ) : ℤ := if 0 ≤ q then ⌊q⌋ else -⌊-q⌋

/-- JavaScript remainder `a % b`: `a - b * trunc(a / b)`; it is NaN (here
`none`) when `b = 0`. -/
def jsMod (a b : ℚ) : Option ℚ :=
  if b = 0 then none else some (a - b * (jsTrunc (a / b) : ℚ))

/-- `const t = clip.loop ? elapsed % duration : Math.min(elapsed, duration)` —
`none` models the NaN produced by `elapsed % 0`. -/
def effectiveTime (c : Clip) (elapsed : ℚ) : Option ℚ :=
  if c.loop then jsMod elapsed (clipDuration c) else some (min elapsed (clipDuration c))

/-- Sampling lifted to the possibly-NaN effective time.  A NaN time compares
false with every keyframe time, so the bracket scan keeps its defaults
`(frames[0], frames[last])`, and NaN then propagates through the alpha
arithmetic and the lerp, so every written value is NaN (`none`). -/
def sampleClipN (c : Clip) : Option ℚ → List (String × Option ℚ)
  | some t => (sampleClip c t).map fun p => (p.1, some p.2)
  | none => (jointNames (firstFrame c) (lastFrame c)).map fun n => (n, none)

/-- `clipRef.current = { clip, start }` — the active playback record. -/
structure ActiveClip where
  clip : Clip
  start : ℚ
deriving Repr, DecidableEq

/-- One frame callback of `ClipRunner` restricted to clip playback: given the
active record and the current time (seconds), it returns the new value of
`clipRef.current` together with the list of joint writes performed.  When a
non-looping clip has `elapsed >= duration` the record is cleared and nothing
is written. -/
def runClipTick (ac : ActiveClip) (now : ℚ) : Option ActiveClip × List (String × Option ℚ) :=
  let elapsed := now - ac.start
  let duration := clipDuration ac.clip
  if ac.clip.loop = false ∧ duration ≤ elapsed then (none, [])
  else (some ac, sampleClipN ac.clip (effectiveTime ac.clip elapsed))

/-- First keyframe of the specification scenario clip: `{time:0,joints:{a:0}}`. -/
def scenarioF0 : Keyframe := { time := 0, joints := [("a", 0)] }

/-- Second keyframe of the specification scenario clip: `{time:1,joints:{a:1}}`. -/
def scenarioF1 : Keyframe := { time := 1, joints := [("a", 1)] }

/-- The two-frame clip of the scenario in the specification:
`{frames:[{time:0,joints:{a:0}},{time:1,joints:{a:1}}]}`, non-looping. -/
def scenarioClip : Clip :=
  { name := "scenario", loop := false, frames := [scenarioF0, scenarioF1] }

/-- A looping clip whose duration is exactly 0: one keyframe at time 0. -/
def degenerateClip : Clip :=
  { name := "degenerate", loop := true,
    frames := [ { time := 0, joints := [("a", 1)] } ] }

/-- A looping single-keyframe clip with positive duration. -/
def singleLoopClip : Clip :=
  { name := "single", loop := true,
    frames := [ { time := 1, joints := [("a", 2)] } ] }

/-- First keyframe of the edge-clamp example: `{time:1,joints:{a:5}}`. -/
def edgeF0 : Keyframe := { time := 1, joints := [("a", 5)] }

/-- Second keyframe of the edge-clamp example: `{time:2,joints:{a:6,b:7}}` —
joint `b` is present here but absent from the first keyframe. -/
def edgeF1 : Keyframe := { time := 2, joints := [("a", 6), ("b", 7)] }

/-- Non-looping clip whose first keyframe sits at time 1, so sample times
before it exercise the edge-clamp path. -/
def edgeClip : Clip := { name := "edge", loop := false, frames := [edgeF0, edgeF1] }

/-! ### Pointer-driven head follow (`ClipRunner`, interaction enabled)

`THREE.MathUtils.degToRad` multiplies by `Math.PI / 180`; the constant pi is
passed as an explicit parameter `piv` so the definitions stay executable,
and the theorems instantiate `piv := Real.pi`. -/

/-- `THREE.MathUtils.clamp(v, lo, hi) = Math.max(lo, Math.min(hi, v))`. -/
def clamp {α : Type} [LinearOrder α] (v lo hi : α) : α := max lo (min hi v)

/-- `THREE.MathUtils.degToRad(d) = d * (Math.PI / 180)`. -/
def degToRad {α : Type} [DivisionRing α] (piv d : α) : α := d * (piv / 180)

/-- `const desiredPan = THREE.MathUtils.degToRad(targetX * 50)` with
`targetX = clamp(headTarget.x, -1, 1)` — the wider pan range. -/
def desiredPan {α : Type} [LinearOrderedField α] (piv tx : α) : α :=
  degToRad piv (clamp tx (-1) 1 * 50)

/-- `const desiredTilt = THREE.MathUtils.degToRad(targetY * 30)` with
`targetY = clamp(headTarget.y, -1, 1)`. -/
def desiredTilt {α : Type} [LinearOrderedField α] (piv ty : α) : α :=
  degToRad piv (clamp ty (-1) 1 * 30)

/-- One tick of the head joint driver:
`setJointValue(THREE.MathUtils.lerp(current, desired, 0.12))`. -/
def headStep {α : Type} [DivisionRing α] (cur target : α) : α :=
  lerp cur target (12 / 100)

/-- The joint value across successive ticks with a held pointer target. -/
def headSeq {α : Type} [DivisionRing α] (x0 target : α) : ℕ → α
  | 0 => x0
  | n + 1 => headStep (headSeq x0 target n) target

/-! ### Model Cache (`ensureFetchPreload`)

The module-level slot `let fetchPreload: Promise<THREE.Object3D | null> |
null = null` is modeled as `Option String`, storing the asset identity
(the `(assetsBase, urdfUrl)` pair collapsed into one id) whose fetch the
stored promise performs; a returned promise is identified the same way. -/

/-- Result of one call to `ensureFetchPreload`: the slot after the call, the
promise handed to the caller, and whether this call started a new fetch. -/
structure PreloadCall where
  cache : Option String
  result : String
  fetched : Bool
deriving Repr, DecidableEq

/-- `function ensureFetchPreload(assetsBase, urdfUrl) { if (fetchPreload)
return fetchPreload; fetchPreload = new Promise(...load(urdfUrl)...); return
fetchPreload; }` — note the slot is a single variable, not keyed by asset. -/
def ensureFetchPreload (cache : Option String) (assetId : String) : PreloadCall :=
  match cache with
  | some p => { cache := some p, result := p, fetched := false }
  | none => { cache := some assetId, result := assetId, fetched := true }

/-- A sequence of `ensureFetchPreload` calls threading the module slot. -/
def runPreloads (cache : Option String) : List String → List PreloadCall
  | [] => []
  | a :: rest =>
      let call := ensureFetchPreload cache a
      call :: runPreloads call.cache rest

/-! ### Inactivity reset effect (timers and the in-flight reset animation) -/

/-- State of the inactivity-reset effect: whether the 2000 ms timeout is
armed, and the start time of an in-flight `smoothReset` animation-frame
chain (`resetAnimRef`), if any. -/
structure ResetSys where
  timerArmed : Bool
  anim : Option ℚ
deriving Repr, DecidableEq

/-- Any of the listeners pointermove / wheel / touchstart / pointerdown /
pointerenter fires `resetTimer()`: it clears and re-arms the inactivity
timeout.  Nothing in this handler touches `resetAnimRef`. -/
def interactionTrigger (s : ResetSys) : ResetSys := { s with timerArmed := true }

/-- The inactivity timeout fires `resetView -> smoothReset`: any previous
animation frame is cancelled (`cancelAnimationFrame(resetAnimRef.current)`)
and a fresh reset animation starts at `now`. -/
def inactivityFire (_s : ResetSys) (now : ℚ) : ResetSys :=
  { timerArmed := false, anim := some now }

/-! ### Camera reset interpolation (`smoothReset` and the intro drift) -/

/-- Camera vectors, embedded componentwise. -/
abbrev Vec3 := ℚ × ℚ × ℚ

/-- `THREE.Vector3.lerpVectors(v1, v2, alpha)` componentwise. -/
def lerpVec (a b : Vec3) (s : ℚ) : Vec3 :=
  (lerp a.1 b.1 s, lerp a.2.1 b.2.1 s, lerp a.2.2 b.2.2 s)

/-- `const eased = t < 0.5 ? 2 * t * t : -1 + (4 - 2 * t) * t` — the easing
written in the code (both in `smoothReset` and in the intro camera drift). -/
def easedOf (t : ℚ) : ℚ := if t < 1 / 2 then 2 * t * t else -1 + (4 - 2 * t) * t

/-- Modelled from the spec: the ease-in-out curve the specification states,
`eased(t) = t<0.5 ? 2t^2 : 1 - (-2t+2)^2 / 2`, to be compared with the
formula of the code. -/
def specEased (t : ℚ) : ℚ := if t < 1 / 2 then 2 * t * t else 1 - (-2 * t + 2) ^ 2 / 2

/-- The record captured when `smoothReset` starts: start/end positions and
look targets, start timestamp and the fixed 1200 ms duration. -/
structure ResetAnim where
  startPos : Vec3
  endPos : Vec3
  startTarget : Vec3
  endTarget : Vec3
  start : ℚ
  duration : ℚ
deriving Repr, DecidableEq

/-- `smoothReset` captures `startPos = camera.position.clone()`, `endPos =
defaultCamPosRef.current.clone()`, `startTarget = controls.target.clone()`,
`endTarget = defaultTargetRef.current.clone()`, `duration = 1200`,
`start = performance.now()`. -/
def smoothResetAnim (camPos ctrlTarget defaultPos defaultTarget : Vec3) (now : ℚ) : ResetAnim :=
  { startPos := camPos, endPos := defaultPos, startTarget := ctrlTarget,
    endTarget := defaultTarget, start := now, duration := 1200 }

/-- One `animate(now)` frame of `smoothReset`: `t = Math.min(1, (now - start)
/ duration)`, the eased lerp of camera position and controls target. -/
def animFrame (a : ResetAnim) (now : ℚ) : Vec3 × Vec3 :=
  let t := min 1 ((now - a.start) / a.duration)
  let eased := easedOf t
  (lerpVec a.startPos a.endPos eased, lerpVec a.startTarget a.endTarget eased)

/-- A reset-effect state with an in-flight reset animation started at 0. -/
def inflight0 : ResetSys := { timerArmed := false, anim := some 0 }

/-- A concrete in-flight reset animation: camera at the origin, default pose
at `(1,0,0)` with default target `(0,1,0)`, started at 0. -/
def resetAnim0 : ResetAnim := smoothResetAnim (0, 0, 0) (0, 0, 0) (1, 0, 0) (0, 1, 0) 0

/-! ### Unmount cleanup -/

/-- The cancellable work a mounted viewer instance may have outstanding:
the inactivity timeout handle, the `resetAnimRef` animation-frame handle,
the `setTimeout` scheduled in `onReady` for `onWaveComplete`, and whether
the robot instance is in the scene graph. -/
structure ViewerTimers where
  inactivityTimeout : Option Nat
  resetAnimFrame : Option Nat
  waveCompleteTimeout : Option Nat
  robotInScene : Bool
deriving Repr, DecidableEq

/-- Everything the unmount cleanups run: the inactivity effect clears
`timeout` and removes its listeners, and the `FetchRobot` effect removes the
robot from the scene.  No cleanup cancels `resetAnimRef.current`, and the
`setTimeout` handle for `onWaveComplete` is discarded at creation, so
neither can be cleared. -/
def unmountCleanup (s : ViewerTimers) : ViewerTimers :=
  { s with inactivityTimeout := none, robotInScene := false }

/-! ### Model load fail-soft path -/

/-- A parsed robot template: its joints record, mapping joint name to the
`jointType` string. -/
structure RobotModel where
  joints : List (String × String)
deriving Repr, DecidableEq

/-- Outcome of the underlying URDF fetch/parse. -/
inductive LoadOutcome
  | success (robot : RobotModel)
  | failure (err : String)
deriving Repr, DecidableEq

/-- How the `ensureFetchPreload` promise resolves: the success callback
resolves the robot, the error callback resolves null (`() => resolve(null)`).
The function is total into `Option RobotModel`: the promise never rejects. -/
def preloadResolve : LoadOutcome → Option RobotModel
  | .success r => some r
  | .failure _ => none

/-- The externally observable effects of the `.then((preloaded) => ...)`
consumer in `FetchRobot`. -/
structure InstantiationEffects where
  sceneAdded : Bool
  jointMap : List (String × String)
  readyCalledWith : Option (List String)
deriving Repr, DecidableEq

/-- `Object.entries(robot.joints).filter(([, j]) => (j.jointType ||
"").toLowerCase() !== "fixed").map(([name]) => name)`. -/
def nonFixedJoints (r : RobotModel) : List String :=
  (r.joints.filter fun p => p.2.toLower != "fixed").map Prod.fst

/-- The consumer body: `if (!preloaded) return;` — a null template adds
nothing to the scene, registers no joints and fires no callbacks; otherwise
the clone is added, the joint map registered and `onReady` called with the
non-fixed joint names. -/
def onPreloadResolved : Option RobotModel → InstantiationEffects
  | none => { sceneAdded := false, jointMap := [], readyCalledWith := none }
  | some r => { sceneAdded := true, jointMap := r.joints,
                readyCalledWith := some (nonFixedJoints r) }

end FetchHero

namespace FetchHero

/-- Claim C1 (amended): for every non-looping clip, a tick whose elapsed time
reaches the clip duration clears the active clip (playback is reported
finished) and performs no joint writes at all on that tick. -/
theorem noloop_finished_clears (c : Clip) (start now : ℚ)
    (hl : c.loop = false) (hfin : clipDuration c ≤ now - start) :
    runClipTick { clip := c, start := start } now = (none, []) := by
  simp [runClipTick, hl, hfin]

/-- Witness for `noloop_finished_clears` at the scenario clip, with
`start = 0` and `now = 2`. -/
theorem noloop_finished_clears_witness :
    scenarioClip.loop = false ∧ clipDuration scenarioClip ≤ 2 - 0 ∧
      runClipTick { clip := scenarioClip, start := 0 } 2 = (none, []) := by
  have h1 : scenarioClip.loop = false := rfl
  have h2 : clipDuration scenarioClip ≤ 2 - 0 := by
    norm_num [clipDuration, lastFrame, scenarioClip, scenarioF0, scenarioF1, defaultKeyframe]
  exact ⟨h1, h2, noloop_finished_clears scenarioClip 0 2 h1 h2⟩

/-- Claim C1, counterexample to the claim as stated: at `t = 2` the tick on
the scenario clip reports finished but does NOT yield the sample `{a: 1}` —
it writes nothing at all. -/
theorem finished_tick_writes_nothing :
    (runClipTick { clip := scenarioClip, start := 0 } 2).1 = none ∧
    (runClipTick { clip := scenarioClip, start := 0 } 2).2 = [] ∧
    ("a", some (1 : ℚ)) ∉ (runClipTick { clip := scenarioClip, start := 0 } 2).2 := by
  have h : runClipTick { clip := scenarioClip, start := 0 } 2 = (none, []) := by
    norm_num [runClipTick, clipDuration, lastFrame, scenarioClip, scenarioF0, scenarioF1, defaultKeyframe]
  rw [h]
  exact ⟨rfl, rfl, by simp⟩

/-- Once the module slot holds a promise, every further call returns that
same promise and fetches nothing, whatever asset identity it asks for. -/
theorem runPreloads_cached (p : String) (rest : List String) :
    runPreloads (some p) rest =
      rest.map fun _ => { cache := some p, result := p, fetched := false } := by
  induction rest with
  | nil => rfl
  | cons b tl ih => simp [runPreloads, ensureFetchPreload, ih]

/-- Claim C2 (amended): the cache is one module-level slot, not keyed by
asset identity.  In any sequence of load calls starting from the empty slot,
exactly the first call performs a fetch, and every caller — later calls for
a distinct asset identity included — receives the promise stored by that
first call. -/
theorem single_slot_single_flight (a : String) (rest : List String) :
    ((runPreloads none (a :: rest)).map PreloadCall.result = (a :: rest).map fun _ => a) ∧
    ((runPreloads none (a :: rest)).countP fun call => call.fetched) = 1 := by
  constructor
  · simp [runPreloads, ensureFetchPreload, runPreloads_cached, List.map_map, Function.comp]
  · simp [runPreloads, ensureFetchPreload, runPreloads_cached, List.countP_cons,
      List.countP_map, Function.comp, List.countP_eq_zero]

/-- Claim C2, counterexample to the claim as stated: after a load for
`assetA`, a load for the distinct identity `assetB` performs no fetch of its
own and receives the result fetched for `assetA`. -/
theorem distinct_assets_share_one_fetch :
    (ensureFetchPreload (ensureFetchPreload none "assetA").cache "assetB").fetched = false ∧
    (ensureFetchPreload (ensureFetchPreload none "assetA").cache "assetB").result = "assetA" ∧
    "assetA" ≠ "assetB" := by
  refine ⟨rfl, rfl, by decide⟩

/-- Claim C4 (amended): an interaction trigger only clears and re-arms the
inactivity timeout and leaves any in-flight reset animation untouched; a
reset animation is replaced (its predecessor cancelled) only when the
inactivity timeout itself fires `smoothReset`. -/
theorem trigger_rearms_timer_only (s : ResetSys) (now : ℚ) :
    (interactionTrigger s).anim = s.anim ∧
    (interactionTrigger s).timerArmed = true ∧
    (inactivityFire s now).anim = some now ∧
    (inactivityFire s now).timerArmed = false :=
  ⟨rfl, rfl, rfl, rfl⟩

/-- Claim C4, counterexample to the claim as stated: with a reset animation
in flight, a pointer trigger leaves it running, and its next frame still
moves the camera further toward the default pose. -/
theorem trigger_does_not_cancel_reset :
    (interactionTrigger inflight0).anim = some 0 ∧
    (animFrame resetAnim0 600).1 = (1 / 2, 0, 0) ∧
    ((1 : ℚ) / 2, (0 : ℚ), (0 : ℚ)) ≠ ((0 : ℚ), (0 : ℚ), (0 : ℚ)) := by
  refine ⟨rfl, ?_, by norm_num⟩
  norm_num [animFrame, resetAnim0, smoothResetAnim, easedOf, lerpVec, lerp]

/-- Claim C5: what unmount actually stops.  The cleanups clear the
inactivity timeout and remove the robot from the scene, but the
`onWaveComplete` timeout and an in-flight reset animation frame are left
exactly as they were — a pending one keeps running after unmount. -/
theorem unmount_leaves_timers (s : ViewerTimers) :
    unmountCleanup s =
      { inactivityTimeout := none, resetAnimFrame := s.resetAnimFrame,
        waveCompleteTimeout := s.waveCompleteTimeout, robotInScene := false } :=
  rfl

/-- Claim C8: the easing of the code equals the ease-in-out curve of the
specification pointwise, it is not the linear curve, and once the fixed
1200 ms duration has elapsed the frame pins camera position and controls
target exactly to the recorded default pose. -/
theorem reset_ease_and_endpoint :
    (∀ t : ℚ, easedOf t = specEased t) ∧
    easedOf (1 / 4) ≠ (1 / 4 : ℚ) ∧
    (∀ (camPos ctrlTarget dPos dTgt : Vec3) (start now : ℚ), 1200 ≤ now - start →
      animFrame (smoothResetAnim camPos ctrlTarget dPos dTgt start) now = (dPos, dTgt)) := by
  refine ⟨?_, by norm_num [easedOf], ?_⟩
  · intro t
    simp only [easedOf, specEased]
    by_cases h : t < 1 / 2
    · rw [if_pos h, if_pos h]
    · rw [if_neg h, if_neg h]; ring
  · intro camPos ctrlTarget dPos dTgt start now h
    have hd : (0 : ℚ) < 1200 := by norm_num
    have ht : (1 : ℚ) ≤ (now - start) / 1200 := by
      rw [le_div_iff₀ hd]; linarith
    have hmin : min 1 ((now - start) / 1200) = 1 := min_eq_left ht
    have he : easedOf 1 = 1 := by norm_num [easedOf]
    have hl : ∀ x y : ℚ, x + (y - x) * 1 = y := by intro x y; ring
    simp [animFrame, smoothResetAnim, hmin, he, lerpVec, lerp, hl]

/-- Witness for `reset_ease_and_endpoint`: the easing formulas agree at
`t = 3/4` and a concrete reset animation pins to its default pose at the
end of its duration. -/
theorem reset_ease_and_endpoint_witness :
    easedOf (3 / 4) = specEased (3 / 4) ∧
    (1200 : ℚ) ≤ 1200 - 0 ∧
    animFrame (smoothResetAnim (0, 0, 0) (0, 0, 0) (2, 3, 4) (5, 6, 7) 0) 1200 =
      ((2, 3, 4), (5, 6, 7)) :=
  ⟨reset_ease_and_endpoint.1 (3 / 4), by norm_num,
    reset_ease_and_endpoint.2.2 (0, 0, 0) (0, 0, 0) (2, 3, 4) (5, 6, 7) 0 1200 (by norm_num)⟩

/-- Looking a name up in a list built by mapping a value function over a
name list yields that function applied to the name. -/
theorem lookupKey_map_apply {α : Type} (l : List String) (f : String → α) (n : String)
    (h : n ∈ l) : lookupKey (l.map fun m => (m, f m)) n = some (f n) := by
  induction l with
  | nil => cases h
  | cons a tl ih =>
    simp only [List.map, lookupKey]
    by_cases ha : a = n
    · rw [if_pos ha, ha]
    · rw [if_neg ha]
      exact ih ((List.mem_cons.mp h).resolve_left fun hn => ha hn.symm)

/-- The registry filter does not change the looked-up value of a name that
is present in the registry. -/
theorem lookupKey_registryFilter (reg : List String) (l : List (String × ℚ)) (n : String)
    (h : n ∈ reg) : lookupKey (registryFilter reg l) n = lookupKey l n := by
  induction l with
  | nil => rfl
  | cons p rest ih =>
    obtain ⟨k, v⟩ := p
    simp only [registryFilter]
    by_cases hk : k ∈ reg
    · rw [if_pos hk]
      simp only [lookupKey]
      by_cases hkn : k = n
      · rw [if_pos hkn, if_pos hkn]
      · rw [if_neg hkn, if_neg hkn, ih]
    · rw [if_neg hk, ih]
      have hkn : k ≠ n := fun he => hk (he ▸ h)
      simp [lookupKey, hkn]

/-- `sampleClip` unfolded at a known bracketing pair. -/
theorem sampleClip_eq (c : Clip) (t : ℚ) (f1 f2 : Keyframe)
    (hb : findBracket c t = (f1, f2)) :
    sampleClip c t = (jointNames f1 f2).map fun n =>
      (n, lerp (kfValue f1 n) (kfValue f2 n) (alphaAt f1 f2 t)) := by
  simp only [sampleClip, hb]

/-- Claim C6: for every joint name of either bracketing keyframe that is
present in the joint registry, the value written is the lerp of the two
keyframe values — absent values defaulting to 0 — at alpha
`clamp01((t - f1.time) / max(0.001, f2.time - f1.time))`. -/
theorem sample_write_formula (reg : List String) (c : Clip) (t : ℚ) (f1 f2 : Keyframe)
    (n : String) (hb : findBracket c t = (f1, f2)) (hn : n ∈ jointNames f1 f2)
    (hr : n ∈ reg) :
    lookupKey (registryFilter reg (sampleClip c t)) n =
      some (lerp ((lookupKey f1.joints n).getD 0) ((lookupKey f2.joints n).getD 0)
        (min 1 (max 0 ((t - f1.time) / max (1 / 1000) (f2.time - f1.time))))) := by
  rw [lookupKey_registryFilter reg _ n hr, sampleClip_eq c t f1 f2 hb,
    lookupKey_map_apply _ _ n hn]
  simp [kfValue, alphaAt, spanOf]

/-- Witness for `sample_write_formula`: the scenario clip, sampled at
`t = 1/2` against a registry containing the joint `a`, writes the lerp of
the two keyframe values — which is `1/2`, as the specification scenario
states. -/
theorem sample_write_formula_witness :
    findBracket scenarioClip (1 / 2) = (scenarioF0, scenarioF1) ∧
    "a" ∈ jointNames scenarioF0 scenarioF1 ∧
    "a" ∈ ["a"] ∧
    lookupKey (registryFilter ["a"] (sampleClip scenarioClip (1 / 2))) "a" =
      some (lerp ((lookupKey scenarioF0.joints "a").getD 0)
        ((lookupKey scenarioF1.joints "a").getD 0)
        (min 1 (max 0 (((1 : ℚ) / 2 - scenarioF0.time) /
          max (1 / 1000) (scenarioF1.time - scenarioF0.time))))) ∧
    lookupKey (registryFilter ["a"] (sampleClip scenarioClip (1 / 2))) "a" =
      some (1 / 2) := by
  have hb : findBracket scenarioClip (1 / 2) = (scenarioF0, scenarioF1) := by
    norm_num [findBracket, scanBracket, scenarioClip, scenarioF0, scenarioF1]
  have hn : "a" ∈ jointNames scenarioF0 scenarioF1 := by
    simp [jointNames, insertUnique, scenarioF0, scenarioF1]
  have hr : "a" ∈ ["a"] := by simp
  have happ := sample_write_formula ["a"] scenarioClip (1 / 2) scenarioF0 scenarioF1 "a" hb hn hr
  refine ⟨hb, hn, hr, happ, ?_⟩
  rw [happ]
  norm_num [lerp, lookupKey, scenarioF0, scenarioF1]

/-- A scan over frames whose times all exceed `t` never finds a bracket. -/
theorem scanBracket_eq_none_of_lt (t : ℚ) :
    ∀ fs : List Keyframe, (∀ f ∈ fs, t < f.time) → scanBracket fs t = none := by
  intro fs
  induction fs with
  | nil => intro _; rfl
  | cons a tl ih =>
    intro hall
    cases tl with
    | nil => rfl
    | cons b tl2 =>
      have ha : t < a.time := hall a (by simp)
      simp only [scanBracket]
      rw [if_neg fun hcon => absurd hcon.1 (not_le.mpr ha)]
      exact ih fun f hf => hall f (List.mem_cons_of_mem a hf)

/-- Claim C7 (amended): for a sample time before the first keyframe of a
non-empty time-sorted clip, alpha clamps to 0, so every name of the edge
pair `(frames[0], frames[last])` is written with the zero-defaulted value
of the FIRST keyframe: joints of the first keyframe get exactly their
authored values, and joints present only in the last keyframe get 0. -/
theorem clamp_before_first (c : Clip) (t : ℚ) (n : String)
    (hne : c.frames ≠ [])
    (hsort : List.Pairwise (fun a b : Keyframe => a.time ≤ b.time) c.frames)
    (ht : t < (firstFrame c).time)
    (hn : n ∈ jointNames (firstFrame c) (lastFrame c)) :
    lookupKey (sampleClip c t) n = some (kfValue (firstFrame c) n) := by
  have hall : ∀ f ∈ c.frames, t < f.time := by
    intro f hf
    cases hc : c.frames with
    | nil => rw [hc] at hf; cases hf
    | cons f0 rest =>
      have hfirst : firstFrame c = f0 := by simp [firstFrame, hc]
      rw [hc] at hf
      rcases List.mem_cons.mp hf with h | h
      · rw [h, ← hfirst]; exact ht
      · have hle : f0.time ≤ f.time := by
          have := hsort
          rw [hc] at this
          exact (List.pairwise_cons.mp this).1 f h
        rw [hfirst] at ht
        linarith
  have hscan : scanBracket c.frames t = none := scanBracket_eq_none_of_lt t c.frames hall
  have hb : findBracket c t = (firstFrame c, lastFrame c) := by
    simp [findBracket, hscan]
  have hspan : (0 : ℚ) < spanOf (firstFrame c) (lastFrame c) :=
    lt_of_lt_of_le (by norm_num) (le_max_left _ _)
  have halpha : alphaAt (firstFrame c) (lastFrame c) t = 0 := by
    have hnum : t - (firstFrame c).time < 0 := sub_neg.mpr ht
    have hq : (t - (firstFrame c).time) / spanOf (firstFrame c) (lastFrame c) ≤ 0 :=
      le_of_lt (div_neg_of_neg_of_pos hnum hspan)
    rw [alphaAt, max_eq_left hq, min_eq_right (by norm_num)]
  rw [sampleClip_eq c t _ _ hb, lookupKey_map_apply _ _ n hn, halpha]
  simp [lerp]

/-- Witness for `clamp_before_first`: the edge clip sampled at `t = 0`
(before its first keyframe at time 1) returns the first-keyframe value for
joint `a`. -/
theorem clamp_before_first_witness :
    edgeClip.frames ≠ [] ∧ (0 : ℚ) < (firstFrame edgeClip).time ∧
    lookupKey (sampleClip edgeClip 0) "a" = some (kfValue (firstFrame edgeClip) "a") := by
  have hne : edgeClip.frames ≠ [] := by simp [edgeClip]
  have hsort : List.Pairwise (fun a b : Keyframe => a.time ≤ b.time) edgeClip.frames := by
    norm_num [edgeClip, edgeF0, edgeF1]
  have ht : (0 : ℚ) < (firstFrame edgeClip).time := by
    norm_num [firstFrame, edgeClip, edgeF0]
  have hn : "a" ∈ jointNames (firstFrame edgeClip) (lastFrame edgeClip) := by
    simp [jointNames, insertUnique, firstFrame, lastFrame, edgeClip, edgeF0, edgeF1]
  exact ⟨hne, ht, clamp_before_first edgeClip 0 "a" hne hsort ht hn⟩

/-- Claim C7, counterexample to the claim as stated: an unfinished tick of
the edge clip at `t = 0 < frames[0].time` writes joint `a` with the first
keyframe value 5, but ALSO writes joint `b` — absent from the first
keyframe — with the default 0, so the output is not exactly the first
keyframe mapping. -/
theorem before_first_writes_extra_joint :
    (runClipTick { clip := edgeClip, start := 0 } 0).1 = some { clip := edgeClip, start := 0 } ∧
    lookupKey (runClipTick { clip := edgeClip, start := 0 } 0).2 "a" = some (some 5) ∧
    lookupKey (runClipTick { clip := edgeClip, start := 0 } 0).2 "b" = some (some 0) ∧
    lookupKey edgeF0.joints "b" = none := by
  have hba : ¬("b" : String) = "a" := by decide
  have hab : ¬("a" : String) = "b" := by decide
  have h : runClipTick { clip := edgeClip, start := 0 } 0 =
      (some { clip := edgeClip, start := 0 }, [("a", some 5), ("b", some 0)]) := by
    norm_num [runClipTick, clipDuration, lastFrame, firstFrame, defaultKeyframe, edgeClip,
      edgeF0, edgeF1, effectiveTime, sampleClipN, sampleClip, findBracket, scanBracket,
      jointNames, insertUnique, kfValue, lookupKey, lerp, alphaAt, spanOf, hba, hab]
  rw [h]
  refine ⟨rfl, ?_, ?_, ?_⟩ <;> simp [lookupKey, edgeF0]

/-- Claim C3, counterexample to the claim as stated: a looping clip whose
duration is exactly 0 is sampled at effective time `elapsed % 0 = NaN`, and
the joint write is NaN (`none`) — not the well-defined keyframe value. -/
theorem zero_duration_loop_samples_nan :
    runClipTick { clip := degenerateClip, start := 0 } 1 =
      (some { clip := degenerateClip, start := 0 }, [("a", none)]) := by
  norm_num [runClipTick, clipDuration, lastFrame, firstFrame, defaultKeyframe,
    degenerateClip, effectiveTime, jsMod, sampleClipN, jointNames, insertUnique]

/-- Looking up a name after tagging every value with `some`. -/
theorem lookupKey_map_some (l : List (String × ℚ)) (n : String) :
    lookupKey (l.map fun p => (p.1, some p.2)) n = (lookupKey l n).map some := by
  induction l with
  | nil => rfl
  | cons p rest ih =>
    obtain ⟨k, v⟩ := p
    simp only [List.map, lookupKey]
    by_cases hk : k = n
    · rw [if_pos hk, if_pos hk]; rfl
    · rw [if_neg hk, if_neg hk, ih]

/-- Interpolating between equal endpoints gives that endpoint whatever the
alpha. -/
theorem lerp_self {α : Type} [Ring α] (x a : α) : lerp x x a = x := by
  simp [lerp]

/-- Claim C3 (amended): the epsilon floor guards only the interpolation
span.  For a looping clip with POSITIVE duration the tick stays active and
every written value is a well-defined rational (never NaN), and a
single-keyframe looping clip with positive keyframe time always samples
exactly that keyframe. -/
theorem loop_positive_duration_wellDefined (c : Clip) (start now : ℚ)
    (hl : c.loop = true) (hd : 0 < clipDuration c) :
    (runClipTick { clip := c, start := start } now).1 = some { clip := c, start := start } ∧
    (∀ p ∈ (runClipTick { clip := c, start := start } now).2, ∃ v : ℚ, p.2 = some v) ∧
    (∀ f : Keyframe, c.frames = [f] → ∀ n ∈ jointNames f f,
      lookupKey (runClipTick { clip := c, start := start } now).2 n =
        some (some (kfValue f n))) := by
  have hcond : ¬(c.loop = false ∧ clipDuration c ≤ now - start) := by
    rintro ⟨h1, -⟩
    rw [hl] at h1
    cases h1
  obtain ⟨t, hts⟩ : ∃ t, effectiveTime c (now - start) = some t := by
    refine ⟨now - start - clipDuration c * (jsTrunc ((now - start) / clipDuration c) : ℚ), ?_⟩
    simp [effectiveTime, hl, jsMod, ne_of_gt hd]
  refine ⟨by simp [runClipTick, hcond], ?_, ?_⟩
  · simp only [runClipTick, if_neg hcond, hts, sampleClipN]
    intro p hp
    rcases List.mem_map.mp hp with ⟨q, -, hq⟩
    exact ⟨q.2, by rw [← hq]⟩
  · intro f hf n hn
    have hb : findBracket c t = (f, f) := by
      simp [findBracket, hf, scanBracket, firstFrame, lastFrame]
    simp only [runClipTick, if_neg hcond, hts, sampleClipN]
    rw [lookupKey_map_some, sampleClip_eq c t f f hb, lookupKey_map_apply _ _ n hn,
      lerp_self]
    rfl

/-- Witness for `loop_positive_duration_wellDefined`: the single-keyframe
looping clip with duration 1, ticked at `now = 5`. -/
theorem loop_positive_duration_wellDefined_witness :
    singleLoopClip.loop = true ∧ (0 : ℚ) < clipDuration singleLoopClip ∧
    ((runClipTick { clip := singleLoopClip, start := 0 } 5).1 =
        some { clip := singleLoopClip, start := 0 } ∧
      (∀ p ∈ (runClipTick { clip := singleLoopClip, start := 0 } 5).2, ∃ v : ℚ, p.2 = some v) ∧
      (∀ f : Keyframe, singleLoopClip.frames = [f] → ∀ n ∈ jointNames f f,
        lookupKey (runClipTick { clip := singleLoopClip, start := 0 } 5).2 n =
          some (some (kfValue f n)))) := by
  have hl : singleLoopClip.loop = true := rfl
  have hd : (0 : ℚ) < clipDuration singleLoopClip := by
    norm_num [clipDuration, lastFrame, singleLoopClip]
  exact ⟨hl, hd, loop_positive_duration_wellDefined singleLoopClip 0 5 hl hd⟩

/-- Claim C10: the load resolves to null on failure instead of rejecting,
and the consumer treats a null template as skip-instantiation — nothing is
added to the scene, no joints are registered, no ready callback fires. -/
theorem load_fails_soft (e : String) :
    preloadResolve (LoadOutcome.failure e) = none ∧
    onPreloadResolved none =
      { sceneAdded := false, jointMap := [], readyCalledWith := none } :=
  ⟨rfl, rfl⟩

/-- Closed form of the smoothed head sequence: the gap to the target decays
geometrically with ratio `1 - 0.12 = 0.88`. -/
theorem headSeq_gap (x0 T : ℝ) (n : ℕ) :
    headSeq x0 T n = T - (88 / 100) ^ n * (T - x0) := by
  induction n with
  | zero => simp [headSeq]
  | succ n ih =>
    simp only [headSeq, headStep, lerp, ih, pow_succ]
    ring

/-- The smoothed sequence never overshoots a target at or above its start. -/
theorem headSeq_le_target (x0 T : ℝ) (h : x0 ≤ T) (n : ℕ) : headSeq x0 T n ≤ T := by
  rw [headSeq_gap]
  have h1 : (0 : ℝ) ≤ (88 / 100 : ℝ) ^ n := by positivity
  nlinarith

/-- The smoothed sequence is monotone toward a target at or above its start. -/
theorem headSeq_mono_step (x0 T : ℝ) (h : x0 ≤ T) (n : ℕ) :
    headSeq x0 T n ≤ headSeq x0 T (n + 1) := by
  rw [headSeq_gap, headSeq_gap, pow_succ]
  have h1 : (0 : ℝ) ≤ (88 / 100 : ℝ) ^ n := by positivity
  nlinarith

/-- The smoothed sequence converges to its target. -/
theorem headSeq_tendsto (x0 T : ℝ) :
    Filter.Tendsto (headSeq x0 T) Filter.atTop (nhds T) := by
  have hg : Filter.Tendsto (fun n : ℕ => (88 / 100 : ℝ) ^ n) Filter.atTop (nhds 0) :=
    tendsto_pow_atTop_nhds_zero_of_lt_one (by norm_num) (by norm_num)
  have hgc := (hg.mul_const (T - x0)).const_sub T
  simp only [zero_mul, sub_zero] at hgc
  exact hgc.congr fun n => (headSeq_gap x0 T n).symm

/-- Claim C9: with the pointer held at the viewport corner `(1, 1)`, the
head pan and tilt joint values under `lerp(current, clamped target, 0.12)`
are monotone nondecreasing, never exceed the mapped maximum angles, and
converge to them; the pan range (50 degrees) is wider than the tilt range
(30 degrees). -/
theorem head_follow_converges (p0 q0 : ℝ)
    (hp : p0 ≤ desiredPan Real.pi 1) (hq : q0 ≤ desiredTilt Real.pi 1) :
    (∀ n, headSeq p0 (desiredPan Real.pi 1) n ≤ headSeq p0 (desiredPan Real.pi 1) (n + 1)) ∧
    (∀ n, headSeq p0 (desiredPan Real.pi 1) n ≤ desiredPan Real.pi 1) ∧
    Filter.Tendsto (headSeq p0 (desiredPan Real.pi 1)) Filter.atTop
      (nhds (desiredPan Real.pi 1)) ∧
    (∀ n, headSeq q0 (desiredTilt Real.pi 1) n ≤ headSeq q0 (desiredTilt Real.pi 1) (n + 1)) ∧
    (∀ n, headSeq q0 (desiredTilt Real.pi 1) n ≤ desiredTilt Real.pi 1) ∧
    Filter.Tendsto (headSeq q0 (desiredTilt Real.pi 1)) Filter.atTop
      (nhds (desiredTilt Real.pi 1)) ∧
    desiredTilt Real.pi 1 < desiredPan Real.pi 1 := by
  refine ⟨headSeq_mono_step p0 _ hp, headSeq_le_target p0 _ hp, headSeq_tendsto p0 _,
    headSeq_mono_step q0 _ hq, headSeq_le_target q0 _ hq, headSeq_tendsto q0 _, ?_⟩
  have hclamp : clamp (1 : ℝ) (-1) 1 = 1 := by norm_num [clamp]
  simp only [desiredPan, desiredTilt, degToRad, hclamp, one_mul]
  have hpi : (0 : ℝ) < Real.pi / 180 := by positivity
  nlinarith

/-- Witness for `head_follow_converges` at the starting values `p0 = q0 = 0`,
which lie below the (positive) mapped maximum angles. -/
theorem head_follow_converges_witness :
    (0 : ℝ) ≤ desiredPan Real.pi 1 ∧ (0 : ℝ) ≤ desiredTilt Real.pi 1 ∧
    ((∀ n, headSeq 0 (desiredPan Real.pi 1) n ≤ headSeq 0 (desiredPan Real.pi 1) (n + 1)) ∧
      (∀ n, headSeq 0 (desiredPan Real.pi 1) n ≤ desiredPan Real.pi 1) ∧
      Filter.Tendsto (headSeq 0 (desiredPan Real.pi 1)) Filter.atTop
        (nhds (desiredPan Real.pi 1)) ∧
      (∀ n, headSeq 0 (desiredTilt Real.pi 1) n ≤ headSeq 0 (desiredTilt Real.pi 1) (n + 1)) ∧
      (∀ n, headSeq 0 (desiredTilt Real.pi 1) n ≤ desiredTilt Real.pi 1) ∧
      Filter.Tendsto (headSeq 0 (desiredTilt Real.pi 1)) Filter.atTop
        (nhds (desiredTilt Real.pi 1)) ∧
      desiredTilt Real.pi 1 < desiredPan Real.pi 1) := by
  have hclamp : clamp (1 : ℝ) (-1) 1 = 1 := by norm_num [clamp]
  have hp : (0 : ℝ) ≤ desiredPan Real.pi 1 := by
    simp only [desiredPan, degToRad, hclamp, one_mul]
    positivity
  have hq : (0 : ℝ) ≤ desiredTilt Real.pi 1 := by
    simp only [desiredTilt, degToRad, hclamp, one_mul]
    positivity
  exact ⟨hp, hq, head_follow_converges 0 0 hp hq⟩

end FetchHero
